import Mathlib

/-!
Verification of the rustler transaction ledger and rule engine.

This file is a shallow embedding of the core services of the repository:
the transaction ledger engine (src/services/transaction_service.rs), the
category resolver (src/services/category_service.rs), the rule engine
(src/services/rule_service.rs) and the transaction+rule orchestrator
(src/services/transaction_rule_service.rs).

Modelling conventions:
- UUIDs are modelled as natural numbers; Uuid::new_v4 is modelled by a
  fresh-id counter threaded through the database state.
- Rust f64 values are modelled by the F64 type below: an exact rational
  for finite values plus the special values nan, inf and ninf.  IEEE
  rounding is not modelled (balance arithmetic is treated as exact); the
  sign tests, absolute value and special-value propagation follow IEEE
  semantics, which is what the branch logic of the source depends on.
- The Postgres store is modelled as lists of records inside DBState.  A
  SQL UPDATE ... WHERE id = x is modelled as a map over the list that
  rewrites every matching record and reports the number of matching rows
  (rows_affected).  A transaction scope (begin/commit/rollback) is
  modelled by returning, on the error paths, the state as it was when
  the scope opened, so that all writes inside the scope are discarded.
- Timestamps are omitted: no claim mentions them and they influence no
  control flow in the embedded functions.
-/

/-- Model of a Rust f64: exact rational for finite values plus the IEEE
special values.  Rounding is not modelled. -/
inductive F64 where
  | fin : ℚ → F64
  | nan : F64
  | inf : F64
  | ninf : F64
deriving DecidableEq, Repr

namespace F64

/-- Models f64::is_finite. -/
def isFinite : F64 → Bool
  | .fin _ => true
  | _ => false

/-- Models the comparison x == 0.0 (nan == 0.0 is false). -/
def isZero : F64 → Bool
  | .fin q => q == 0
  | _ => false

/-- Models IEEE negation. -/
def neg : F64 → F64
  | .fin q => .fin (-q)
  | .nan => .nan
  | .inf => .ninf
  | .ninf => .inf

/-- Models f64::abs. -/
def abs : F64 → F64
  | .fin q => .fin |q|
  | .nan => .nan
  | .inf => .inf
  | .ninf => .inf

/-- Models the comparison x >= 0.0 (false for nan). -/
def nonneg : F64 → Bool
  | .fin q => decide (0 ≤ q)
  | .nan => false
  | .inf => true
  | .ninf => false

/-- Models IEEE addition (without rounding). -/
def add : F64 → F64 → F64
  | .nan, _ => .nan
  | _, .nan => .nan
  | .inf, .ninf => .nan
  | .ninf, .inf => .nan
  | .inf, _ => .inf
  | _, .inf => .inf
  | .ninf, _ => .ninf
  | _, .ninf => .ninf
  | .fin a, .fin b => .fin (a + b)

/-- Models IEEE subtraction. -/
def sub (a b : F64) : F64 := a.add b.neg

/-- Models the IEEE strict comparison a < b (false whenever nan is involved). -/
def lt : F64 → F64 → Bool
  | .nan, _ => false
  | _, .nan => false
  | .fin a, .fin b => decide (a < b)
  | .ninf, .ninf => false
  | .ninf, _ => true
  | _, .ninf => false
  | .inf, _ => false
  | .fin _, .inf => true

end F64

/-! Basic arithmetic lemmas about F64 used by the ledger proofs. -/

theorem F64.add_zero (x : F64) : x.add (F64.fin 0) = x := by
  cases x <;> simp [F64.add]

theorem F64.sub_zero (x : F64) : x.sub (F64.fin 0) = x := by
  cases x <;> simp [F64.sub, F64.neg, F64.add]

theorem F64.sub_fin_add_fin (x : F64) (v : ℚ) :
    (x.sub (F64.fin v)).add (F64.fin v) = x := by
  cases x <;> simp [F64.sub, F64.neg, F64.add]

theorem F64.add_fin_sub_fin (x : F64) (v : ℚ) :
    (x.add (F64.fin v)).sub (F64.fin v) = x := by
  cases x <;> simp [F64.sub, F64.neg, F64.add]

theorem F64.sub_fin_eq_add_neg (x : F64) (v : ℚ) :
    x.sub (F64.fin v) = x.add (F64.fin (-v)) := by
  cases x <;> simp [F64.sub, F64.neg, F64.add]

/-! String helpers modelling the Rust string predicates used by rule
condition evaluation. -/

/-- Models str::to_lowercase (ASCII case folding; the conditions in the
claims only involve ASCII data). -/
def strLower (s : String) : String := s.map Char.toLower

/-- Auxiliary: needle occurs at the start of hay (on character lists). -/
def charsStart : List Char → List Char → Bool
  | [], _ => true
  | _ :: _, [] => false
  | a :: as, b :: bs => a == b && charsStart as bs

/-- Auxiliary: needle occurs somewhere inside hay (on character lists). -/
def charsHave (hay needle : List Char) : Bool :=
  match hay with
  | [] => needle.isEmpty
  | _ :: t => charsStart needle hay || charsHave t needle

/-- Models str::contains for plain substring needles. -/
def strHas (hay needle : String) : Bool := charsHave hay.data needle.data

/-- Models str::starts_with. -/
def strStarts (hay needle : String) : Bool := charsStart needle.data hay.data

/-- Models str::parse::<f64> on plain decimal literals: optional sign,
digits with an optional fractional part.  Returns none when the string is
not such a literal; the claims depend only on the parse-failure behaviour
and on the value of ordinary decimal literals. -/
def parseF64 (s : String) : Option F64 :=
  let cs := s.data
  let (neg, body) :=
    match cs with
    | '-' :: r => (true, r)
    | '+' :: r => (false, r)
    | _ => (false, cs)
  let intPart := body.takeWhile (fun c => c ≠ '.')
  let rest := body.dropWhile (fun c => c ≠ '.')
  let fracPart :=
    match rest with
    | '.' :: f => some f
    | [] => some []
    | _ => none
  match fracPart with
  | none => none
  | some f =>
    if intPart.all Char.isDigit ∧ f.all Char.isDigit ∧ (intPart ≠ [] ∨ f ≠ []) then
      let digits := intPart ++ f
      let n : ℕ := digits.foldl (fun acc c => acc * 10 + (c.toNat - '0'.toNat)) 0
      let q : ℚ := (n : ℚ) / ((10 : ℚ) ^ f.length)
      some (F64.fin (if neg then -q else q))
    else none

/-- Models Uuid::parse_str at the granularity of the embedding, where a
UUID is a natural number rendered by toString. -/
def parseUuid (s : String) : Option Nat := s.toNat?

/-! Data model: accounts, transactions, categories, rules
(src/models/account.rs, transaction.rs, category.rs, rule.rs). -/

structure Account where
  id : Nat
  name : String
  account_type : String
  balance : F64
deriving DecidableEq, Repr

structure Txn where
  id : Nat
  source_account_id : Nat
  destination_account_id : Nat
  destination_name : Option String
  description : String
  amount : F64
  category : String
  category_id : Option Nat
  budget_id : Option Nat
deriving DecidableEq, Repr

structure Category where
  id : Nat
  name : String
deriving DecidableEq, Repr

inductive ConditionType where
  | descriptionContains
  | descriptionStartsWith
  | descriptionEquals
  | sourceAccountEquals
  | destinationAccountEquals
  | destinationNameContains
  | destinationNameEquals
  | amountGreaterThan
  | amountLessThan
  | amountEquals
deriving DecidableEq, Repr

inductive ActionType where
  | setCategory
  | setBudget
  | setDescription
  | setDestinationName
deriving DecidableEq, Repr

structure RuleCondition where
  condition_type : ConditionType
  value : String
deriving DecidableEq, Repr

structure RuleAction where
  action_type : ActionType
  value : String
deriving DecidableEq, Repr

/-- A stored rule row.  The conditions_json and actions_json text columns
are modelled by their serde parse results: some list when the JSON
deserializes, none when it is malformed. -/
structure RustRule where
  id : Nat
  name : String
  is_active : Bool
  priority : Int
  conditions_data : Option (List RuleCondition)
  actions_data : Option (List RuleAction)
deriving DecidableEq, Repr

structure CreateTransactionRequest where
  source_account_id : Nat
  destination_account_id : Option Nat
  destination_name : Option String
  description : String
  amount : F64
  category : String
  budget_id : Option Nat
deriving DecidableEq, Repr

structure UpdateTransactionRequest where
  destination_account_id : Option Nat
  destination_name : Option String
  description : Option String
  amount : Option F64
  category : Option String
  budget_id : Option Nat
deriving DecidableEq, Repr

/-- The relational store: accounts, transactions, categories and rules
tables plus the fresh-id counter standing in for Uuid::new_v4. -/
structure DBState where
  accounts : List Account
  transactions : List Txn
  categories : List Category
  rules : List RustRule
  nextId : Nat
deriving DecidableEq, Repr

/-- Error taxonomy.  The source reports all of these through
sqlx::Error: invalidTransaction models the two Protocol messages raised
by create-time validation, invariantViolation the Protocol messages
raised when a balance update affects an unexpected number of rows, and
rowNotFound models sqlx::Error::RowNotFound. -/
inductive SvcError where
  | invalidTransaction
  | invariantViolation
  | rowNotFound
deriving DecidableEq, Repr

instance {e a : Type} [DecidableEq e] [DecidableEq a] : DecidableEq (Except e a) :=
  fun x y =>
    match x, y with
    | .error e1, .error e2 =>
      if h : e1 = e2 then isTrue (by rw [h])
      else isFalse (fun hh => h (Except.error.inj hh))
    | .error _, .ok _ => isFalse (fun hh => Except.noConfusion hh)
    | .ok _, .error _ => isFalse (fun hh => Except.noConfusion hh)
    | .ok a1, .ok a2 =>
      if h : a1 = a2 then isTrue (by rw [h])
      else isFalse (fun hh => h (Except.ok.inj hh))

/-! Rule engine (src/services/rule_service.rs). -/

/-- One condition evaluated against a transaction; the body of the
conditions.iter().all closure shared by apply_rules_to_transaction,
apply_rule_to_all_transactions, apply_all_rules_to_all_transactions and
test_conditions. -/
def evalCondition (t : Txn) (c : RuleCondition) : Bool :=
  match c.condition_type with
  | .descriptionContains => strHas (strLower t.description) (strLower c.value)
  | .descriptionStartsWith => strStarts (strLower t.description) (strLower c.value)
  | .descriptionEquals => strLower t.description == strLower c.value
  | .sourceAccountEquals => toString t.source_account_id == c.value
  | .destinationAccountEquals => toString t.destination_account_id == c.value
  | .destinationNameContains =>
    match t.destination_name with
    | some n => strHas (strLower n) (strLower c.value)
    | none => false
  | .destinationNameEquals =>
    match t.destination_name with
    | some n => strLower n == strLower c.value
    | none => false
  | .amountGreaterThan =>
    match parseF64 c.value with
    | some v => F64.lt v t.amount
    | none => false
  | .amountLessThan =>
    match parseF64 c.value with
    | some v => F64.lt t.amount v
    | none => false
  | .amountEquals =>
    match parseF64 c.value with
    | some v => F64.lt ((t.amount.sub v).abs) (F64.fin (1 / 1000))
    | none => false

/-- The empty accumulating patch (the UpdateTransactionRequest literal with
every field None that each evaluation loop starts from). -/
def emptyPatch : UpdateTransactionRequest :=
  { destination_account_id := none, destination_name := none, description := none,
    amount := none, category := none, budget_id := none }

/-- One action folded into the accumulating patch; the body of the
for-action loop.  A SetBudget value that does not parse as a UUID is
logged and skipped, leaving the patch unchanged. -/
def applyAction (u : UpdateTransactionRequest) (a : RuleAction) : UpdateTransactionRequest :=
  match a.action_type with
  | .setCategory => { u with category := some a.value }
  | .setBudget =>
    match parseUuid a.value with
    | some b => { u with budget_id := some b }
    | none => u
  | .setDescription => { u with description := some a.value }
  | .setDestinationName => { u with destination_name := some a.value }

/-- The whole action list folded into the patch. -/
def applyActionsToPatch (u : UpdateTransactionRequest) (acts : List RuleAction) :
    UpdateTransactionRequest :=
  acts.foldl applyAction u

/-- All conditions of a rule hold for the transaction (logical AND; an
empty list matches everything). -/
def ruleMatches (t : Txn) (conds : List RuleCondition) : Bool :=
  conds.all (evalCondition t)

/-- One iteration of the per-rule loop of apply_rules_to_transaction: a
rule whose stored conditions or actions fail to deserialize is skipped
(continue); otherwise, when every condition holds, the actions are folded
into the patch and the any_rule_applied flag is set. -/
def foldRule (t : Txn) (acc : UpdateTransactionRequest × Bool) (r : RustRule) :
    UpdateTransactionRequest × Bool :=
  match r.conditions_data, r.actions_data with
  | some conds, some acts =>
    if ruleMatches t conds then (applyActionsToPatch acc.1 acts, true) else acc
  | _, _ => acc

/-- The rule fetch of the evaluation paths:
SELECT * FROM rules WHERE is_active = true ORDER BY priority ASC.
The query orders by priority only; rows of equal priority keep the table
(insertion) order, modelled by a stable insertion sort. -/
def activeRulesSorted (table : List RustRule) : List RustRule :=
  List.insertionSort (fun a b => a.priority ≤ b.priority)
    (table.filter (fun r => r.is_active))

/-- RuleService::apply_rules_to_transaction: fetch the active rules in
priority order, fold every rule into a single patch, and return the patch
when at least one rule applied. -/
def apply_rules_to_transaction (table : List RustRule) (t : Txn) :
    Option UpdateTransactionRequest :=
  let rules := activeRulesSorted table
  if rules.isEmpty then none
  else
    let folded := rules.foldl (foldRule t) (emptyPatch, false)
    if folded.2 then some folded.1 else none

/-- Lexicographic comparison of strings by character code (the byte-wise
collation of ORDER BY name ASC for the ASCII names in play). -/
def charsLe : List Char → List Char → Bool
  | [], _ => true
  | _ :: _, [] => false
  | a :: as, b :: bs =>
    if a.toNat < b.toNat then true
    else if b.toNat < a.toNat then false
    else charsLe as bs

/-- Modelled from the spec: the same evaluation but with the active rules
ordered by ascending priority with ties broken by name ascending, as the
spec describes the fetch.  Used only to compare the spec ordering with
the ordering the code actually requests. -/
def apply_rules_to_transaction_specOrder (table : List RustRule) (t : Txn) :
    Option UpdateTransactionRequest :=
  let rules := List.insertionSort
    (fun a b => (decide (a.priority < b.priority) ||
                 (a.priority == b.priority && charsLe a.name.data b.name.data)) = true)
    (table.filter (fun r => r.is_active))
  if rules.isEmpty then none
  else
    let folded := rules.foldl (foldRule t) (emptyPatch, false)
    if folded.2 then some folded.1 else none

/-- A rule contributes to the fold: its stored payloads deserialize and
all its conditions hold for the transaction. -/
def ruleApplies (t : Txn) (r : RustRule) : Bool :=
  match r.conditions_data, r.actions_data with
  | some conds, some _ => ruleMatches t conds
  | _, _ => false

/-- The patch has at least one field set; the condition guarding the
batch UPDATE in both apply-to-all paths. -/
def patchNonempty (u : UpdateTransactionRequest) : Bool :=
  u.category.isSome || u.budget_id.isSome || u.description.isSome ||
    u.destination_name.isSome

/-- The batch UPDATE issued by the apply-to-all paths: it sets only the
category, budget_id, description and destination_name columns (plus
updated_at, not modelled); amount and the account id columns are never
part of the statement. -/
def batchPatchTxn (t : Txn) (u : UpdateTransactionRequest) : Txn :=
  { t with
    category := u.category.getD t.category,
    budget_id := match u.budget_id with | some b => some b | none => t.budget_id,
    description := u.description.getD t.description,
    destination_name :=
      match u.destination_name with | some n => some n | none => t.destination_name }

/-- Per-transaction body of apply_all_rules_to_all_transactions: fold all
active rules, and issue the batch UPDATE when a rule applied and the
patch is nonempty. -/
def applyAllRulesTransform (rules : List RustRule) (t : Txn) : Txn :=
  let folded := rules.foldl (foldRule t) (emptyPatch, false)
  if folded.2 && patchNonempty folded.1 then batchPatchTxn t folded.1 else t

/-- RuleService::apply_all_rules_to_all_transactions: fetch active rules
in priority order; when none exist return 0; otherwise run the fold over
every transaction and count the distinct transactions updated. -/
def apply_all_rules_to_all_transactions (st : DBState) : Nat × DBState :=
  let rules := activeRulesSorted st.rules
  if rules.isEmpty then (0, st)
  else
    let affected := st.transactions.countP (fun t =>
      let folded := rules.foldl (foldRule t) (emptyPatch, false)
      folded.2 && patchNonempty folded.1)
    (affected, { st with transactions := st.transactions.map (applyAllRulesTransform rules) })

/-- A rule row whose two JSON payloads deserialized; the RuleResponse
shape produced by Rule::to_response. -/
structure ParsedRule where
  id : Nat
  name : String
  is_active : Bool
  priority : Int
  conditions : List RuleCondition
  actions : List RuleAction
deriving DecidableEq, Repr

/-- RuleService::get_rule: find the row by id and deserialize both
payloads; a malformed row is reported as absent. -/
def get_rule (table : List RustRule) (rid : Nat) : Option ParsedRule :=
  match table.find? (fun r => r.id == rid) with
  | none => none
  | some r =>
    match r.conditions_data, r.actions_data with
    | some conds, some acts =>
      some { id := r.id, name := r.name, is_active := r.is_active,
             priority := r.priority, conditions := conds, actions := acts }
    | _, _ => none

/-- Per-transaction body of apply_rule_to_all_transactions: evaluate the
one rule and issue the batch UPDATE when it matches with a nonempty
patch. -/
def singleRuleTransform (r : ParsedRule) (t : Txn) : Txn :=
  if ruleMatches t r.conditions then
    let patch := applyActionsToPatch emptyPatch r.actions
    if patchNonempty patch then batchPatchTxn t patch else t
  else t

/-- RuleService::apply_rule_to_all_transactions: load the rule (absent or
malformed rows give RowNotFound); an inactive rule affects nothing;
otherwise evaluate the single rule against every transaction. -/
def apply_rule_to_all_transactions (st : DBState) (rid : Nat) :
    Except SvcError (Nat × DBState) :=
  match get_rule st.rules rid with
  | none => .error .rowNotFound
  | some r =>
    if !r.is_active then .ok (0, st)
    else
      let affected := st.transactions.countP (fun t =>
        ruleMatches t r.conditions && patchNonempty (applyActionsToPatch emptyPatch r.actions))
      .ok (affected, { st with transactions := st.transactions.map (singleRuleTransform r) })

/-- RuleService::test_conditions: evaluate an arbitrary condition list
against all stored transactions (most recent first, ordering left to the
transactions list) and return the match count and the first 100 matches. -/
def test_conditions (st : DBState) (conds : List RuleCondition) : Nat × List Txn :=
  let matched := st.transactions.filter (fun t => ruleMatches t conds)
  (matched.length, matched.take 100)

/-! Ledger engine (src/services/transaction_service.rs) and category
resolver (src/services/category_service.rs). -/

/-- Models UPDATE accounts SET balance = f(balance) WHERE id = aid:
returns the rewritten table and the number of rows affected. -/
def updateBalance (accounts : List Account) (aid : Nat) (f : F64 → F64) :
    List Account × Nat :=
  (accounts.map (fun a => if a.id == aid then { a with balance := f a.balance } else a),
   (accounts.filter (fun a => a.id == aid)).length)

/-- Models SELECT balance FROM accounts WHERE id = aid (first matching row). -/
def acctBal (accounts : List Account) (aid : Nat) : Option F64 :=
  (accounts.find? (fun a => a.id == aid)).map (fun a => a.balance)

/-- Balance of an account, defaulting to 0 for an absent row; used to
state balance-delta properties uniformly for accounts synthesized during
the operation (they are created with balance 0). -/
def balOr0 (accounts : List Account) (aid : Nat) : F64 :=
  (acctBal accounts aid).getD (F64.fin 0)

/-- Models SELECT id FROM accounts WHERE name = nm (first matching row). -/
def findAccountByName (accounts : List Account) (nm : String) : Option Account :=
  accounts.find? (fun a => a.name == nm)

/-- TransactionService::apply_transaction_balance_effects: the helper used
by update_transaction.  For a nonnegative amount the source loses and the
destination gains the absolute amount; for a negative amount the source
gains and the destination loses it.  No rows_affected check is made. -/
def applyBalanceDeltas (accounts : List Account) (src dst : Nat) (amount : F64) :
    List Account :=
  let a := amount.abs
  if amount.nonneg then
    let acc1 := (updateBalance accounts src (fun b => b.sub a)).1
    (updateBalance acc1 dst (fun b => b.add a)).1
  else
    let acc1 := (updateBalance accounts src (fun b => b.add a)).1
    (updateBalance acc1 dst (fun b => b.sub a)).1

/-- TransactionService::reverse_transaction_balance_effects: the exact
inverse deltas of the stored transaction, again without rows_affected
checks. -/
def reverseBalanceDeltas (accounts : List Account) (t : Txn) : List Account :=
  let a := t.amount.abs
  if t.amount.nonneg then
    let acc1 := (updateBalance accounts t.source_account_id (fun b => b.add a)).1
    (updateBalance acc1 t.destination_account_id (fun b => b.sub a)).1
  else
    let acc1 := (updateBalance accounts t.source_account_id (fun b => b.sub a)).1
    (updateBalance acc1 t.destination_account_id (fun b => b.add a)).1

/-- The inline balance application of create_transaction, which checks
that each UPDATE affects exactly one row and otherwise raises the
invariant-violation error (modelled by none). -/
def applyBalanceDeltasChecked (accounts : List Account) (src dst : Nat) (amount : F64) :
    Option (List Account) :=
  let a := amount.abs
  if amount.nonneg then
    let r1 := updateBalance accounts src (fun b => b.sub a)
    if r1.2 ≠ 1 then none
    else
      let r2 := updateBalance r1.1 dst (fun b => b.add a)
      if r2.2 ≠ 1 then none else some r2.1
  else
    let r1 := updateBalance accounts src (fun b => b.add a)
    if r1.2 ≠ 1 then none
    else
      let r2 := updateBalance r1.1 dst (fun b => b.sub a)
      if r2.2 ≠ 1 then none else some r2.1

/-- CategoryService::find_or_create_category, which runs on the pool
(outside any transaction scope of a caller): look the category up by
name, inserting a fresh row when absent.  Returns the category and the
updated state. -/
def findOrCreateCategoryState (st : DBState) (name : String) : Category × DBState :=
  match st.categories.find? (fun c => c.name == name) with
  | some c => (c, st)
  | none =>
    let c : Category := { id := st.nextId, name := name }
    (c, { st with categories := st.categories ++ [c], nextId := st.nextId + 1 })

/-- Destination resolution of create_transaction: an explicit destination
id is used directly; otherwise the destination name (or the description
when no name is given) is looked up among account names, and a fresh
External account with zero balance is inserted when no account matches.
Returns the destination id, the account table as seen inside the open
transaction scope, and the advanced fresh-id counter. -/
def resolveDestination (accounts : List Account) (nextId : Nat)
    (req : CreateTransactionRequest) : Nat × List Account × Nat :=
  match req.destination_account_id with
  | some d => (d, accounts, nextId)
  | none =>
    let destName := req.destination_name.getD req.description
    match findAccountByName accounts destName with
    | some a => (a.id, accounts, nextId)
    | none =>
      (nextId,
       accounts ++ [{ id := nextId, name := destName, account_type := "External",
                      balance := F64.fin 0 }],
       nextId + 1)

/-- The destination_name column value computed by create_transaction: the
requested name when given, otherwise the name of the resolved account
(empty string when the id matches no account). -/
def resolvedDestName (accounts : List Account) (destId : Nat)
    (req : CreateTransactionRequest) : String :=
  match req.destination_name with
  | some nm => nm
  | none =>
    match accounts.find? (fun a => a.id == destId) with
    | some a => a.name
    | none => ""

/-- TransactionService::create_transaction.  Category resolution runs on
the pool and therefore persists even when the operation later fails;
destination resolution, the row insert and the checked balance deltas run
inside one transaction scope and are all discarded on any failure. -/
def create_transaction (st : DBState) (req : CreateTransactionRequest) :
    Except SvcError Txn × DBState :=
  let stCat := (findOrCreateCategoryState st req.category).2
  let cat := (findOrCreateCategoryState st req.category).1
  let res := resolveDestination stCat.accounts stCat.nextId req
  let destId := res.1
  let accounts1 := res.2.1
  let n2 := res.2.2
  let destName := resolvedDestName accounts1 destId req
  if !req.amount.isFinite || req.amount.isZero then
    (.error .invalidTransaction, stCat)
  else if req.source_account_id == destId then
    (.error .invalidTransaction, stCat)
  else
    let txn : Txn :=
      { id := n2, source_account_id := req.source_account_id,
        destination_account_id := destId, destination_name := some destName,
        description := req.description, amount := req.amount,
        category := req.category, category_id := some cat.id,
        budget_id := req.budget_id }
    match applyBalanceDeltasChecked accounts1 req.source_account_id destId req.amount with
    | none => (.error .invariantViolation, stCat)
    | some accounts2 =>
      (.ok txn,
       { stCat with accounts := accounts2,
                    transactions := stCat.transactions ++ [txn],
                    nextId := n2 + 1 })

/-- TransactionService::update_transaction.  The original balance effect
is reversed, the requested fields are rewritten (re-resolving category on
the pool and destination inside the scope), and the new balance effect is
applied with the unchecked helper.  The source account id never changes. -/
def update_transaction (st : DBState) (tid : Nat) (req : UpdateTransactionRequest) :
    Except SvcError (Option Txn) × DBState :=
  match st.transactions.find? (fun t => t.id == tid) with
  | none => (.ok none, st)
  | some orig =>
    let accounts1 := reverseBalanceDeltas st.accounts orig
    let newAmount := req.amount.getD orig.amount
    let catRes : List Category × Nat × Option (String × Nat) :=
      match req.category with
      | none => (st.categories, st.nextId, none)
      | some nm =>
        let fc := findOrCreateCategoryState st nm
        (fc.2.categories, fc.2.nextId, some (nm, fc.1.id))
    let cats1 := catRes.1
    let n1 := catRes.2.1
    let catFields := catRes.2.2
    let destRes : List Account × Nat × Nat × Option String :=
      match req.destination_account_id with
      | some d =>
        (accounts1, n1, d,
         if req.destination_name.isNone then
           match accounts1.find? (fun a => a.id == d) with
           | some a => some a.name
           | none => none
         else none)
      | none =>
        match req.destination_name with
        | some nm =>
          (match findAccountByName accounts1 nm with
           | some a => (accounts1, n1, a.id, some nm)
           | none =>
             (accounts1 ++ [{ id := n1, name := nm, account_type := "External",
                              balance := F64.fin 0 }],
              n1 + 1, n1, some nm))
        | none => (accounts1, n1, orig.destination_account_id, none)
    let accounts2 := destRes.1
    let n2 := destRes.2.1
    let destId := destRes.2.2.1
    let destNameField := destRes.2.2.2
    let updated : Txn :=
      { orig with
        amount := newAmount,
        description := req.description.getD orig.description,
        category := match catFields with | some p => p.1 | none => orig.category,
        category_id := match catFields with | some p => some p.2 | none => orig.category_id,
        budget_id := match req.budget_id with | some b => some b | none => orig.budget_id,
        destination_account_id := destId,
        destination_name :=
          match destNameField with | some nm => some nm | none => orig.destination_name }
    let accounts3 := applyBalanceDeltas accounts2 orig.source_account_id destId newAmount
    (.ok (some updated),
     { st with accounts := accounts3,
               transactions := st.transactions.map (fun t => if t.id == tid then updated else t),
               categories := cats1,
               nextId := n2 })

/-- TransactionService::delete_transaction: an absent id returns false;
otherwise the row is removed and the balance effect reversed, with no
rows_affected checks on the reversal. -/
def delete_transaction (st : DBState) (tid : Nat) : Bool × DBState :=
  match st.transactions.find? (fun t => t.id == tid) with
  | none => (false, st)
  | some t =>
    (true,
     { st with transactions := st.transactions.filter (fun u => ¬ u.id == tid),
               accounts := reverseBalanceDeltas st.accounts t })

/-! Transaction+rule orchestrator (src/services/transaction_rule_service.rs).

The orchestrator is embedded generically over its three collaborators
(the ledger write, the rule evaluation and the follow-up ledger update),
mirroring the service calls of the source; the control flow below is the
literal if-let structure of TransactionRuleService.  The instantiations
with the embedded services follow. -/

/-- TransactionRuleService::create_transaction: run the ledger create;
on success feed the result to rule evaluation, and when a patch is
produced try the follow-up update.  A failed rule evaluation or a failed
or empty follow-up update falls through to the original ledger result. -/
def orchestrate_create
    (ledger : DBState → Except SvcError Txn × DBState)
    (rules : DBState → Txn → Except SvcError (Option UpdateTransactionRequest) × DBState)
    (upd : DBState → Nat → UpdateTransactionRequest → Except SvcError (Option Txn) × DBState)
    (st : DBState) : Except SvcError Txn × DBState :=
  match ledger st with
  | (.error e, st1) => (.error e, st1)
  | (.ok txn, st1) =>
    match rules st1 txn with
    | (.ok (some u), st2) =>
      (match upd st2 txn.id u with
       | (.ok (some t2), st3) => (.ok t2, st3)
       | (.ok none, st3) => (.ok txn, st3)
       | (.error _, st3) => (.ok txn, st3))
    | (.ok none, st2) => (.ok txn, st2)
    | (.error _, st2) => (.ok txn, st2)

/-- TransactionRuleService::update_transaction: same shape, chained after
the ledger update; an absent transaction returns none. -/
def orchestrate_update
    (ledgerUpd : DBState → Except SvcError (Option Txn) × DBState)
    (rules : DBState → Txn → Except SvcError (Option UpdateTransactionRequest) × DBState)
    (upd : DBState → Nat → UpdateTransactionRequest → Except SvcError (Option Txn) × DBState)
    (st : DBState) : Except SvcError (Option Txn) × DBState :=
  match ledgerUpd st with
  | (.error e, st1) => (.error e, st1)
  | (.ok none, st1) => (.ok none, st1)
  | (.ok (some txn), st1) =>
    match rules st1 txn with
    | (.ok (some u), st2) =>
      (match upd st2 txn.id u with
       | (.ok (some t2), st3) => (.ok (some t2), st3)
       | (.ok none, st3) => (.ok (some txn), st3)
       | (.error _, st3) => (.ok (some txn), st3))
    | (.ok none, st2) => (.ok (some txn), st2)
    | (.error _, st2) => (.ok (some txn), st2)

/-- The embedded rule evaluation as a state step (the fetch of active
rules cannot fail in the embedding, so it always returns ok). -/
def rulesEvalStep (st : DBState) (t : Txn) :
    Except SvcError (Option UpdateTransactionRequest) × DBState :=
  (.ok (apply_rules_to_transaction st.rules t), st)

/-- The orchestrated create instantiated with the embedded services. -/
def transaction_rule_create (st : DBState) (req : CreateTransactionRequest) :
    Except SvcError Txn × DBState :=
  orchestrate_create (fun s => create_transaction s req) rulesEvalStep
    update_transaction st

/-- The orchestrated update instantiated with the embedded services. -/
def transaction_rule_update (st : DBState) (tid : Nat) (req : UpdateTransactionRequest) :
    Except SvcError (Option Txn) × DBState :=
  orchestrate_update (fun s => update_transaction s tid req) rulesEvalStep
    update_transaction st

/-! Helper lemmas about the rule fold. -/

theorem foldRule_applies (t : Txn) (acc : UpdateTransactionRequest × Bool) (r : RustRule)
    (h : ruleApplies t r = false) : foldRule t acc r = acc := by
  unfold foldRule
  unfold ruleApplies at h
  rcases hc : r.conditions_data with _ | conds <;> simp [hc] at h ⊢
  rcases ha : r.actions_data with _ | acts <;> simp [ha] at h ⊢
  simp [h]

theorem foldRule_snd (t : Txn) (l : List RustRule) :
    ∀ (p : UpdateTransactionRequest) (b : Bool),
      (l.foldl (foldRule t) (p, b)).2 = (b || l.any (ruleApplies t)) := by
  induction l with
  | nil => intro p b; simp
  | cons r l ih =>
    intro p b
    simp only [List.foldl_cons, List.any_cons]
    rcases hc : r.conditions_data with _ | conds
    · simp [foldRule, ruleApplies, hc, ih]
    · rcases ha : r.actions_data with _ | acts
      · simp [foldRule, ruleApplies, hc, ha, ih]
      · by_cases hm : ruleMatches t conds
        · simp [foldRule, ruleApplies, hc, ha, hm, ih]
        · simp [foldRule, ruleApplies, hc, ha, hm, ih]

instance : IsTotal RustRule (fun a b => a.priority ≤ b.priority) :=
  ⟨fun a b => Int.le_total a.priority b.priority⟩

instance : IsTrans RustRule (fun a b => a.priority ≤ b.priority) :=
  ⟨fun _ _ _ h1 h2 => le_trans h1 h2⟩

/-- C6 (amended): evaluation folds exactly the active rules, in a
permutation of the table ordered by ascending priority (equal priorities
keep the fetch order; the query requests no name tie-break); the fold
visits every rule without short-circuit, and a later matching rule
overwrites fields set by an earlier one (shown for the category field:
a trailing set-category action determines the final category). -/
theorem claim_c6_rule_order (table : List RustRule) (t : Txn) :
    (activeRulesSorted table).Perm (table.filter (fun r => r.is_active)) ∧
    (activeRulesSorted table).Pairwise (fun a b => a.priority ≤ b.priority) ∧
    apply_rules_to_transaction table t =
      (if (activeRulesSorted table).isEmpty then none
       else
         let folded := (activeRulesSorted table).foldl (foldRule t) (emptyPatch, false)
         if folded.2 then some folded.1 else none) ∧
    (∀ (p : UpdateTransactionRequest) (acts : List RuleAction) (v : String),
      (applyActionsToPatch p (acts ++ [{ action_type := .setCategory, value := v }])).category
        = some v) := by
  refine ⟨List.perm_insertionSort _ _, List.sorted_insertionSort _ _, rfl, ?_⟩
  intro p acts v
  simp [applyActionsToPatch, List.foldl_append, applyAction]

/-- C6 counterexample: two active rules with equal priority and names out
of alphabetical order; the code evaluates them in table order, the spec
ordering (priority then name) evaluates them the other way round, and
the folded patches differ. -/
theorem claim_c6_counterexample :
    apply_rules_to_transaction
        [{ id := 1, name := "b", is_active := true, priority := 1,
           conditions_data := some [],
           actions_data := some [{ action_type := .setCategory, value := "X" }] },
         { id := 2, name := "a", is_active := true, priority := 1,
           conditions_data := some [],
           actions_data := some [{ action_type := .setCategory, value := "Y" }] }]
        { id := 1, source_account_id := 2, destination_account_id := 3,
          destination_name := none, description := "d", amount := F64.fin 5,
          category := "c", category_id := none, budget_id := none }
      ≠
    apply_rules_to_transaction_specOrder
        [{ id := 1, name := "b", is_active := true, priority := 1,
           conditions_data := some [],
           actions_data := some [{ action_type := .setCategory, value := "X" }] },
         { id := 2, name := "a", is_active := true, priority := 1,
           conditions_data := some [],
           actions_data := some [{ action_type := .setCategory, value := "Y" }] }]
        { id := 1, source_account_id := 2, destination_account_id := 3,
          destination_name := none, description := "d", amount := F64.fin 5,
          category := "c", category_id := none, budget_id := none } := by
  decide

/-- C7 (amended): evaluation returns none exactly when no active
well-formed rule matched the transaction; in particular a matching rule
with an empty or wholly ineffective action list makes it return some
patch with no fields set rather than none. -/
theorem claim_c7_none_iff_no_rule_applied (table : List RustRule) (t : Txn) :
    apply_rules_to_transaction table t = none ↔
      ∀ r ∈ activeRulesSorted table, ruleApplies t r = false := by
  unfold apply_rules_to_transaction
  by_cases he : (activeRulesSorted table).isEmpty
  · rw [List.isEmpty_iff] at he
    simp [he]
  · simp only [he, if_false]
    rw [foldRule_snd]
    by_cases ha : (activeRulesSorted table).any (ruleApplies t)
    · simp only [ha, Bool.false_or, if_true]
      constructor
      · intro h; exact absurd h (by simp)
      · intro h
        rw [List.any_eq_true] at ha
        rcases ha with ⟨r, hr, hap⟩
        exact absurd hap (by simp [h r hr])
    · have ha2 : (activeRulesSorted table).any (ruleApplies t) = false := by
        simpa using ha
      simp only [ha2, Bool.false_or, if_false]
      rw [List.any_eq_false] at ha2
      constructor
      · intro _ r hr
        simpa using ha2 r hr
      · intro _; rfl

/-- C7 counterexample: one active rule with an empty condition list (it
matches every transaction) and an empty action list; the folded patch has
no fields set, yet evaluation returns some empty patch, not none. -/
theorem claim_c7_counterexample :
    apply_rules_to_transaction
        [{ id := 1, name := "r", is_active := true, priority := 100,
           conditions_data := some [], actions_data := some [] }]
        { id := 1, source_account_id := 2, destination_account_id := 3,
          destination_name := none, description := "d", amount := F64.fin 5,
          category := "c", category_id := none, budget_id := none }
      = some emptyPatch ∧ patchNonempty emptyPatch = false := by
  constructor
  · decide
  · decide

/-- C10 (confirmed): an amount condition whose comparison value does not
parse as a number evaluates to false for every transaction, so a rule
containing it never matches through that condition; no error is raised
and removing such a rule from anywhere in the evaluation order leaves
the fold over the remaining rules unchanged. -/
theorem claim_c10_unparseable_amount :
    (∀ (t : Txn) (c : RuleCondition),
      (c.condition_type = .amountGreaterThan ∨ c.condition_type = .amountLessThan ∨
        c.condition_type = .amountEquals) →
      parseF64 c.value = none → evalCondition t c = false) ∧
    (∀ (t : Txn) (acc : UpdateTransactionRequest × Bool) (l1 l2 : List RustRule)
        (r : RustRule) (conds : List RuleCondition) (c : RuleCondition),
      r.conditions_data = some conds → c ∈ conds →
      (c.condition_type = .amountGreaterThan ∨ c.condition_type = .amountLessThan ∨
        c.condition_type = .amountEquals) →
      parseF64 c.value = none →
      (l1 ++ r :: l2).foldl (foldRule t) acc = (l1 ++ l2).foldl (foldRule t) acc) := by
  have hfalse : ∀ (t : Txn) (c : RuleCondition),
      (c.condition_type = .amountGreaterThan ∨ c.condition_type = .amountLessThan ∨
        c.condition_type = .amountEquals) →
      parseF64 c.value = none → evalCondition t c = false := by
    intro t c hk hp
    rcases hk with h | h | h <;> simp [evalCondition, h, hp]
  refine ⟨hfalse, ?_⟩
  intro t acc l1 l2 r conds c hconds hmem hk hp
  have hmatch : ruleMatches t conds = false := by
    unfold ruleMatches
    rw [List.all_eq_false]
    exact ⟨c, hmem, by simp [hfalse t c hk hp]⟩
  have happ : ruleApplies t r = false := by
    unfold ruleApplies
    rw [hconds]
    rcases r.actions_data with _ | acts <;> simp [hmatch]
  rw [List.foldl_append, List.foldl_cons, foldRule_applies t _ r happ,
    ← List.foldl_append]

/-- Concrete transaction used by the C10 witness. -/
def txnW10 : Txn :=
  { id := 1, source_account_id := 2, destination_account_id := 3,
    destination_name := none, description := "d", amount := F64.fin 5,
    category := "c", category_id := none, budget_id := none }

/-- Concrete malformed amount condition used by the C10 witness. -/
def condW10 : RuleCondition := { condition_type := .amountEquals, value := "abc" }

/-- Concrete rule carrying the malformed condition, used by the C10 witness. -/
def ruleW10bad : RustRule :=
  { id := 5, name := "bad", is_active := true, priority := 1,
    conditions_data := some [condW10], actions_data := some [] }

/-- Concrete healthy rule used by the C10 witness. -/
def ruleW10ok : RustRule :=
  { id := 6, name := "ok", is_active := true, priority := 2,
    conditions_data := some [],
    actions_data := some [{ action_type := .setCategory, value := "Z" }] }

/-- Witness for C10 at a concrete malformed amount condition. -/
theorem claim_c10_unparseable_amount_witness :
    parseF64 condW10.value = none ∧
    evalCondition txnW10 condW10 = false ∧
    ([] ++ ruleW10bad :: [ruleW10ok]).foldl (foldRule txnW10) (emptyPatch, false) =
      ([] ++ [ruleW10ok]).foldl (foldRule txnW10) (emptyPatch, false) := by
  refine ⟨by decide, ?_, ?_⟩
  · exact claim_c10_unparseable_amount.1 txnW10 condW10 (Or.inr (Or.inr rfl)) (by decide)
  · exact claim_c10_unparseable_amount.2 txnW10 (emptyPatch, false) [] [ruleW10ok]
      ruleW10bad [condW10] condW10 rfl (List.mem_singleton.mpr rfl)
      (Or.inr (Or.inr rfl)) (by decide)

/-! Frame lemmas for the batch rule application. -/

theorem batchPatchTxn_frame (t : Txn) (u : UpdateTransactionRequest) :
    (batchPatchTxn t u).id = t.id ∧
    (batchPatchTxn t u).amount = t.amount ∧
    (batchPatchTxn t u).source_account_id = t.source_account_id ∧
    (batchPatchTxn t u).destination_account_id = t.destination_account_id ∧
    (batchPatchTxn t u).category_id = t.category_id := by
  simp [batchPatchTxn]

theorem listMapIdOfEq {α : Type} (l : List α) (f : α → α) (h : ∀ a ∈ l, f a = a) :
    l.map f = l := by
  induction l with
  | nil => rfl
  | cons a l ih =>
    simp only [List.map_cons, h a (by simp)]
    rw [ih (fun x hx => h x (by simp [hx]))]

theorem applyAllRulesTransform_frame (rules : List RustRule) (t : Txn) :
    (applyAllRulesTransform rules t).id = t.id ∧
    (applyAllRulesTransform rules t).amount = t.amount ∧
    (applyAllRulesTransform rules t).source_account_id = t.source_account_id ∧
    (applyAllRulesTransform rules t).destination_account_id = t.destination_account_id ∧
    (applyAllRulesTransform rules t).category_id = t.category_id := by
  simp only [applyAllRulesTransform]
  split
  · exact batchPatchTxn_frame t _
  · simp

theorem singleRuleTransform_frame (r : ParsedRule) (t : Txn) :
    (singleRuleTransform r t).id = t.id ∧
    (singleRuleTransform r t).amount = t.amount ∧
    (singleRuleTransform r t).source_account_id = t.source_account_id ∧
    (singleRuleTransform r t).destination_account_id = t.destination_account_id ∧
    (singleRuleTransform r t).category_id = t.category_id := by
  simp only [singleRuleTransform]
  split
  · split
    · exact batchPatchTxn_frame t _
    · simp
  · simp

theorem applyAllRulesTransform_nil (t : Txn) : applyAllRulesTransform [] t = t := by
  simp [applyAllRulesTransform, emptyPatch, patchNonempty]

/-- C8 (confirmed): the batch rule runs touch no account row at all, and
rewrite each transaction through a transform that preserves its id,
amount, source account id, destination account id and stable category id;
only category, budget id, description and destination name can change. -/
theorem claim_c8_batch_frame :
    (∀ st : DBState,
      ((apply_all_rules_to_all_transactions st).2).accounts = st.accounts ∧
      ((apply_all_rules_to_all_transactions st).2).transactions =
        st.transactions.map (applyAllRulesTransform (activeRulesSorted st.rules)) ∧
      (∀ (rules : List RustRule) (t : Txn),
        (applyAllRulesTransform rules t).id = t.id ∧
        (applyAllRulesTransform rules t).amount = t.amount ∧
        (applyAllRulesTransform rules t).source_account_id = t.source_account_id ∧
        (applyAllRulesTransform rules t).destination_account_id = t.destination_account_id ∧
        (applyAllRulesTransform rules t).category_id = t.category_id)) ∧
    (∀ (st : DBState) (rid n : Nat) (st2 : DBState),
      apply_rule_to_all_transactions st rid = .ok (n, st2) →
      st2.accounts = st.accounts ∧
      ∃ f : Txn → Txn, st2.transactions = st.transactions.map f ∧
        ∀ t : Txn, (f t).id = t.id ∧ (f t).amount = t.amount ∧
          (f t).source_account_id = t.source_account_id ∧
          (f t).destination_account_id = t.destination_account_id ∧
          (f t).category_id = t.category_id) := by
  constructor
  · intro st
    refine ⟨?_, ?_, fun rules t => applyAllRulesTransform_frame rules t⟩
    · simp only [apply_all_rules_to_all_transactions]
      split
      · rfl
      · rfl
    · simp only [apply_all_rules_to_all_transactions]
      split
      · rename_i hempty
        rw [List.isEmpty_iff] at hempty
        rw [hempty]
        exact (listMapIdOfEq st.transactions _
          (fun t _ => applyAllRulesTransform_nil t)).symm
      · rfl
  · intro st rid n st2 h
    simp only [apply_rule_to_all_transactions] at h
    rcases hg : get_rule st.rules rid with _ | r
    · rw [hg] at h; exact absurd h (by simp)
    · simp only [hg] at h
      by_cases hact : r.is_active
      · rw [hact] at h
        simp only [Bool.not_true, Bool.false_eq_true, if_false, Except.ok.injEq,
          Prod.mk.injEq] at h
        obtain ⟨hn, hst⟩ := h
        subst hst
        exact ⟨rfl, singleRuleTransform r, rfl, fun t => singleRuleTransform_frame r t⟩
      · have hact2 : r.is_active = false := by simpa using hact
        rw [hact2] at h
        simp only [Bool.not_false, if_true, Except.ok.injEq, Prod.mk.injEq] at h
        obtain ⟨hn, hst⟩ := h
        subst hst
        exact ⟨rfl, id, (List.map_id st.transactions).symm, fun t => by simp⟩

/-- Concrete rule used by the C8 witness. -/
def ruleW8 : RustRule :=
  { id := 7, name := "r8", is_active := true, priority := 5,
    conditions_data := some [],
    actions_data := some [{ action_type := .setDescription, value := "patched" }] }

/-- Concrete transaction used by the C8 witness. -/
def txnW8 : Txn :=
  { id := 10, source_account_id := 1, destination_account_id := 2,
    destination_name := none, description := "orig", amount := F64.fin 5,
    category := "c", category_id := none, budget_id := none }

/-- Concrete state used by the C8 witness. -/
def stW8 : DBState :=
  { accounts := [{ id := 1, name := "A", account_type := "On Budget",
                   balance := F64.fin 100 }],
    transactions := [txnW8], categories := [], rules := [ruleW8], nextId := 50 }

/-- Expected output state of the C8 witness run. -/
def stW8out : DBState :=
  { accounts := [{ id := 1, name := "A", account_type := "On Budget",
                   balance := F64.fin 100 }],
    transactions := [{ txnW8 with description := "patched" }],
    categories := [], rules := [ruleW8], nextId := 50 }

/-- Witness for C8: a concrete single-rule batch run that succeeds and
satisfies the frame property. -/
theorem claim_c8_batch_frame_witness :
    apply_rule_to_all_transactions stW8 7 = .ok (1, stW8out) ∧
    (stW8out.accounts = stW8.accounts ∧
      ∃ f : Txn → Txn, stW8out.transactions = stW8.transactions.map f ∧
        ∀ t : Txn, (f t).id = t.id ∧ (f t).amount = t.amount ∧
          (f t).source_account_id = t.source_account_id ∧
          (f t).destination_account_id = t.destination_account_id ∧
          (f t).category_id = t.category_id) :=
  ⟨by rfl, claim_c8_batch_frame.2 stW8 7 1 stW8out (by rfl)⟩

/-- C9 (confirmed): whenever the first ledger write of the orchestrated
create or update succeeds, a failure of the rule evaluation step or of
the rule-driven follow-up update leaves the orchestrator returning the
successful ledger result rather than the error. -/
theorem claim_c9_orchestrator_best_effort :
    (∀ (L : DBState → Except SvcError Txn × DBState)
        (R : DBState → Txn → Except SvcError (Option UpdateTransactionRequest) × DBState)
        (U : DBState → Nat → UpdateTransactionRequest → Except SvcError (Option Txn) × DBState)
        (st st1 : DBState) (txn : Txn),
      L st = (.ok txn, st1) →
      ((∃ e st2, R st1 txn = (.error e, st2)) ∨
        (∃ u st2 e st3, R st1 txn = (.ok (some u), st2) ∧
          U st2 txn.id u = (.error e, st3))) →
      (orchestrate_create L R U st).1 = .ok txn) ∧
    (∀ (LU : DBState → Except SvcError (Option Txn) × DBState)
        (R : DBState → Txn → Except SvcError (Option UpdateTransactionRequest) × DBState)
        (U : DBState → Nat → UpdateTransactionRequest → Except SvcError (Option Txn) × DBState)
        (st st1 : DBState) (txn : Txn),
      LU st = (.ok (some txn), st1) →
      ((∃ e st2, R st1 txn = (.error e, st2)) ∨
        (∃ u st2 e st3, R st1 txn = (.ok (some u), st2) ∧
          U st2 txn.id u = (.error e, st3))) →
      (orchestrate_update LU R U st).1 = .ok (some txn)) := by
  constructor
  · intro L R U st st1 txn hL hfail
    unfold orchestrate_create
    rw [hL]
    rcases hfail with ⟨e, st2, hR⟩ | ⟨u, st2, e, st3, hR, hU⟩
    · simp only [hR]
    · simp only [hR, hU]
  · intro LU R U st st1 txn hL hfail
    unfold orchestrate_update
    rw [hL]
    rcases hfail with ⟨e, st2, hR⟩ | ⟨u, st2, e, st3, hR, hU⟩
    · simp only [hR]
    · simp only [hR, hU]

/-- Concrete transaction used by the C9 witness. -/
def txnW9 : Txn :=
  { id := 3, source_account_id := 1, destination_account_id := 2,
    destination_name := none, description := "w9", amount := F64.fin 5,
    category := "c", category_id := none, budget_id := none }

/-- Concrete empty state used by the C9 witness. -/
def stW9 : DBState :=
  { accounts := [], transactions := [], categories := [], rules := [], nextId := 0 }

/-- Witness for C9: a ledger write that succeeds followed by a rule
evaluation that fails still returns the ledger result, for both the
orchestrated create and the orchestrated update. -/
theorem claim_c9_orchestrator_best_effort_witness :
    (orchestrate_create (fun s => (.ok txnW9, s))
        (fun s _ => (.error .rowNotFound, s))
        (fun s _ _ => (.ok none, s)) stW9).1 = .ok txnW9 ∧
    (orchestrate_update (fun s => (.ok (some txnW9), s))
        (fun s _ => (.error .rowNotFound, s))
        (fun s _ _ => (.ok none, s)) stW9).1 = .ok (some txnW9) :=
  ⟨claim_c9_orchestrator_best_effort.1 _ _ _ stW9 stW9 txnW9 rfl
      (Or.inl ⟨.rowNotFound, stW9, rfl⟩),
    claim_c9_orchestrator_best_effort.2 _ _ _ stW9 stW9 txnW9 rfl
      (Or.inl ⟨.rowNotFound, stW9, rfl⟩)⟩

/-! Lemmas about the balance-update primitives. -/

theorem acctBal_updateBalance_self (l : List Account) (s : Nat) (f : F64 → F64) :
    acctBal (updateBalance l s f).1 s = (acctBal l s).map f := by
  induction l with
  | nil => rfl
  | cons a l ih =>
    by_cases h : a.id == s
    · simp [updateBalance, acctBal, List.find?, h] at ih ⊢
    · simp only [updateBalance, List.map_cons, acctBal, List.find?, h, if_false,
        Bool.false_eq_true] at ih ⊢
      simpa [h] using ih

theorem acctBal_updateBalance_ne (l : List Account) (s x : Nat) (f : F64 → F64)
    (h : x ≠ s) : acctBal (updateBalance l s f).1 x = acctBal l x := by
  induction l with
  | nil => rfl
  | cons a l ih =>
    by_cases ha : a.id == s
    · have hax : (a.id == x) = false := by
        have heq : a.id = s := by simpa using ha
        rw [heq]
        simp only [beq_eq_false_iff_ne, ne_eq]
        exact fun hh => h hh.symm
      simp only [updateBalance, List.map_cons, acctBal, List.find?, ha, if_true] at ih ⊢
      simp only [hax, Bool.false_eq_true, if_false]
      simpa [hax] using ih
    · simp only [updateBalance, List.map_cons, acctBal, List.find?, ha, Bool.false_eq_true,
        if_false] at ih ⊢
      by_cases hax : a.id == x
      · simp [hax]
      · simp only [hax, Bool.false_eq_true, if_false]
        simpa [hax] using ih

theorem filterLength_updateBalance (l : List Account) (s x : Nat) (f : F64 → F64) :
    ((updateBalance l s f).1.filter (fun a => a.id == x)).length =
      (l.filter (fun a => a.id == x)).length := by
  induction l with
  | nil => rfl
  | cons a l ih =>
    by_cases ha : a.id == s
    · simp only [updateBalance, List.map_cons, List.filter_cons] at ih ⊢
      simp only [ha, if_true]
      by_cases hax : a.id == x <;> simp [hax, ih] <;> simpa [hax] using ih
    · simp only [updateBalance, List.map_cons, List.filter_cons] at ih ⊢
      simp only [ha, Bool.false_eq_true, if_false]
      by_cases hax : a.id == x <;> simp [hax] <;> simpa [hax] using ih

theorem acctBal_append_ne (l : List Account) (a : Account) (x : Nat) (h : a.id ≠ x) :
    acctBal (l ++ [a]) x = acctBal l x := by
  have hax : (a.id == x) = false := by
    simp only [beq_eq_false_iff_ne, ne_eq]; exact h
  induction l with
  | nil => simp [acctBal, List.find?, hax]
  | cons b l ih =>
    by_cases hb : b.id == x
    · simp [acctBal, List.find?, hb]
    · simp only [List.cons_append, acctBal, List.find?, hb, Bool.false_eq_true,
        if_false] at ih ⊢
      simpa [hb] using ih

theorem acctBal_append_self (l : List Account) (a : Account) (x : Nat)
    (h : acctBal l x = none) (hid : a.id = x) :
    acctBal (l ++ [a]) x = some a.balance := by
  induction l with
  | nil => simp [acctBal, List.find?, hid]
  | cons b l ih =>
    by_cases hb : b.id == x
    · simp [acctBal, List.find?, hb] at h
    · simp only [acctBal, List.find?, hb, Bool.false_eq_true, if_false] at h
      simp only [List.cons_append, acctBal, List.find?, hb, Bool.false_eq_true, if_false]
      exact ih h

theorem filterLength_append (l : List Account) (a : Account) (x : Nat) :
    ((l ++ [a]).filter (fun b => b.id == x)).length =
      (l.filter (fun b => b.id == x)).length + (if a.id == x then 1 else 0) := by
  by_cases h : a.id == x <;> simp [List.filter_append, h]

theorem acctBal_eq_none_of_count_zero (l : List Account) (x : Nat)
    (h : (l.filter (fun a => a.id == x)).length = 0) : acctBal l x = none := by
  rw [List.length_eq_zero] at h
  unfold acctBal
  rw [List.find?_eq_none.mpr, Option.map_none']
  intro a hmem hpa
  have : a ∈ l.filter (fun b => b.id == x) := List.mem_filter.mpr ⟨hmem, hpa⟩
  simp [h] at this

theorem acctBal_isSome_of_count_one (l : List Account) (x : Nat)
    (h : (l.filter (fun a => a.id == x)).length = 1) : ∃ b, acctBal l x = some b := by
  have hne : l.filter (fun a => a.id == x) ≠ [] := by
    intro hnil; rw [hnil] at h; simp at h
  rcases List.exists_mem_of_ne_nil _ hne with ⟨a, ha⟩
  rcases List.mem_filter.mp ha with ⟨hmem, hpa⟩
  have : (l.find? (fun b => b.id == x)).isSome := by
    rw [List.find?_isSome]
    exact ⟨a, hmem, hpa⟩
  rcases Option.isSome_iff_exists.mp this with ⟨b, hb⟩
  exact ⟨b.balance, by unfold acctBal; rw [hb]; rfl⟩

/-! Lemmas about the composite balance-delta routines. -/

theorem acctBal_applyBalanceDeltas_src (l : List Account) (s d : Nat) (a : F64)
    (h : s ≠ d) :
    acctBal (applyBalanceDeltas l s d a) s =
      if a.nonneg then (acctBal l s).map (fun b => b.sub a.abs)
      else (acctBal l s).map (fun b => b.add a.abs) := by
  unfold applyBalanceDeltas
  split <;>
    rw [acctBal_updateBalance_ne _ _ _ _ h, acctBal_updateBalance_self]

theorem acctBal_applyBalanceDeltas_dst (l : List Account) (s d : Nat) (a : F64)
    (h : s ≠ d) :
    acctBal (applyBalanceDeltas l s d a) d =
      if a.nonneg then (acctBal l d).map (fun b => b.add a.abs)
      else (acctBal l d).map (fun b => b.sub a.abs) := by
  unfold applyBalanceDeltas
  split <;>
    rw [acctBal_updateBalance_self,
      acctBal_updateBalance_ne _ _ _ _ (fun hh => h hh.symm)]

theorem filterLength_applyBalanceDeltas (l : List Account) (s d x : Nat) (a : F64) :
    ((applyBalanceDeltas l s d a).filter (fun b => b.id == x)).length =
      (l.filter (fun b => b.id == x)).length := by
  unfold applyBalanceDeltas
  split <;> rw [filterLength_updateBalance, filterLength_updateBalance]

theorem filterLength_reverseBalanceDeltas (l : List Account) (t : Txn) (x : Nat) :
    ((reverseBalanceDeltas l t).filter (fun b => b.id == x)).length =
      (l.filter (fun b => b.id == x)).length := by
  unfold reverseBalanceDeltas
  split <;> rw [filterLength_updateBalance, filterLength_updateBalance]

theorem applyBalanceDeltasChecked_some (l : List Account) (s d : Nat) (a : F64)
    (l2 : List Account) (h : applyBalanceDeltasChecked l s d a = some l2) :
    (l.filter (fun x => x.id == s)).length = 1 ∧
    (l.filter (fun x => x.id == d)).length = 1 ∧
    l2 = applyBalanceDeltas l s d a := by
  unfold applyBalanceDeltasChecked at h
  simp only [] at h
  unfold applyBalanceDeltas
  split at h
  · split at h
    · exact absurd h (by simp)
    · rename_i h1
      split at h
      · exact absurd h (by simp)
      · rename_i h2
        rw [not_not] at h1 h2
        have hs : (l.filter (fun x => x.id == s)).length = 1 := h1
        have hd : (l.filter (fun x => x.id == d)).length = 1 :=
          (filterLength_updateBalance l s d _).symm.trans h2
        refine ⟨hs, hd, ?_⟩
        simp only [Option.some.injEq] at h
        rw [← h]
        rename_i hn
        simp only [hn, if_true]
  · split at h
    · exact absurd h (by simp)
    · rename_i h1
      split at h
      · exact absurd h (by simp)
      · rename_i h2
        rw [not_not] at h1 h2
        have hs : (l.filter (fun x => x.id == s)).length = 1 := h1
        have hd : (l.filter (fun x => x.id == d)).length = 1 :=
          (filterLength_updateBalance l s d _).symm.trans h2
        refine ⟨hs, hd, ?_⟩
        simp only [Option.some.injEq] at h
        rw [← h]
        rename_i hn
        simp only [hn, Bool.false_eq_true, if_false]

theorem applyBalanceDeltasChecked_of_counts (l : List Account) (s d : Nat) (a : F64)
    (hs : (l.filter (fun x => x.id == s)).length = 1)
    (hd : (l.filter (fun x => x.id == d)).length = 1) :
    applyBalanceDeltasChecked l s d a = some (applyBalanceDeltas l s d a) := by
  unfold applyBalanceDeltasChecked applyBalanceDeltas
  simp only []
  split
  · rw [if_neg (by simp [show (updateBalance l s (fun b => b.sub a.abs)).2 = 1 from hs]),
      if_neg (by
        simp [show (updateBalance (updateBalance l s (fun b => b.sub a.abs)).1 d
            (fun b => b.add a.abs)).2 =
            ((updateBalance l s (fun b => b.sub a.abs)).1.filter
              (fun x => x.id == d)).length from rfl,
          filterLength_updateBalance, hd])]
  · rw [if_neg (by simp [show (updateBalance l s (fun b => b.add a.abs)).2 = 1 from hs]),
      if_neg (by
        simp [show (updateBalance (updateBalance l s (fun b => b.add a.abs)).1 d
            (fun b => b.sub a.abs)).2 =
            ((updateBalance l s (fun b => b.add a.abs)).1.filter
              (fun x => x.id == d)).length from rfl,
          filterLength_updateBalance, hd])]

/-! Identity lemmas used by the reversal-correctness analysis. -/

theorem updateBalance_id (l : List Account) (s : Nat) (f : F64 → F64)
    (h : ∀ b : F64, f b = b) : (updateBalance l s f).1 = l := by
  unfold updateBalance
  refine listMapIdOfEq l _ (fun a _ => ?_)
  by_cases ha : a.id == s
  · simp [ha, h a.balance]
  · simp [ha]

theorem applyBalanceDeltas_zero (l : List Account) (s d : Nat) :
    applyBalanceDeltas l s d (F64.fin 0) = l := by
  unfold applyBalanceDeltas
  have habs : (F64.fin 0).abs = F64.fin 0 := by simp [F64.abs]
  have hn : (F64.fin 0).nonneg = true := by simp [F64.nonneg]
  rw [if_pos hn, habs, updateBalance_id _ _ _ (fun b => F64.sub_zero b),
    updateBalance_id _ _ _ (fun b => F64.add_zero b)]

theorem applyBalanceDeltas_same_account (l : List Account) (s : Nat) (q : ℚ) :
    applyBalanceDeltas l s s (F64.fin q) = l := by
  unfold applyBalanceDeltas
  have habs : (F64.fin q).abs = F64.fin |q| := rfl
  split
  · rw [habs]
    unfold updateBalance
    simp only []
    rw [List.map_map]
    refine listMapIdOfEq l _ (fun a _ => ?_)
    by_cases ha : a.id == s
    · simp only [Function.comp_apply, ha, if_true, F64.sub_fin_add_fin]
    · simp only [Function.comp_apply, ha, Bool.false_eq_true, if_false]
  · rw [habs]
    unfold updateBalance
    simp only []
    rw [List.map_map]
    refine listMapIdOfEq l _ (fun a _ => ?_)
    by_cases ha : a.id == s
    · simp only [Function.comp_apply, ha, if_true, F64.add_fin_sub_fin]
    · simp only [Function.comp_apply, ha, Bool.false_eq_true, if_false]

/-! Lemmas about category resolution and destination resolution. -/

theorem findOrCreateCategoryState_accounts (st : DBState) (nm : String) :
    ((findOrCreateCategoryState st nm).2).accounts = st.accounts := by
  unfold findOrCreateCategoryState
  split <;> rfl

theorem findOrCreateCategoryState_transactions (st : DBState) (nm : String) :
    ((findOrCreateCategoryState st nm).2).transactions = st.transactions := by
  unfold findOrCreateCategoryState
  split <;> rfl

theorem findOrCreateCategoryState_rules (st : DBState) (nm : String) :
    ((findOrCreateCategoryState st nm).2).rules = st.rules := by
  unfold findOrCreateCategoryState
  split <;> rfl

/-- The External account synthesized by destination resolution when no
account carries the requested name. -/
def synthesizedAccount (nm : String) (nid : Nat) : Account :=
  { id := nid, name := nm, account_type := "External", balance := F64.fin 0 }

theorem synthesizedAccount_id (nm : String) (nid : Nat) :
    (synthesizedAccount nm nid).id = nid := rfl

theorem synthesizedAccount_balance (nm : String) (nid : Nat) :
    (synthesizedAccount nm nid).balance = F64.fin 0 := rfl

theorem resolveDestination_shape (accounts : List Account) (nextId : Nat)
    (req : CreateTransactionRequest) :
    (resolveDestination accounts nextId req).2.1 = accounts ∨
    ((resolveDestination accounts nextId req).2.1 =
        accounts ++ [synthesizedAccount (req.destination_name.getD req.description) nextId] ∧
      (resolveDestination accounts nextId req).1 = nextId) := by
  unfold resolveDestination
  rcases req.destination_account_id with _ | d
  · simp only []
    rcases findAccountByName accounts (req.destination_name.getD req.description)
      with _ | a
    · exact Or.inr ⟨rfl, rfl⟩
    · exact Or.inl rfl
  · exact Or.inl rfl

/-! Named projections of the intermediate values of create_transaction,
used to state its properties. -/

/-- The state after the pool-side category resolution of create. -/
def createStCat (st : DBState) (req : CreateTransactionRequest) : DBState :=
  (findOrCreateCategoryState st req.category).2

/-- The resolved destination account id of create. -/
def createDestId (st : DBState) (req : CreateTransactionRequest) : Nat :=
  (resolveDestination (createStCat st req).accounts (createStCat st req).nextId req).1

/-- The account table seen inside the transaction scope of create, after
destination resolution. -/
def createAccounts1 (st : DBState) (req : CreateTransactionRequest) : List Account :=
  (resolveDestination (createStCat st req).accounts (createStCat st req).nextId req).2.1

/-- Inversion of a successful create: the amount validated as a nonzero
finite value, the resolved destination differs from the source, the
returned transaction carries the request fields, and the final account
table is the checked application of the balance deltas. -/
theorem create_transaction_ok_inv (st : DBState) (req : CreateTransactionRequest)
    (t : Txn) (st2 : DBState) (h : create_transaction st req = (.ok t, st2)) :
    ∃ q : ℚ, req.amount = F64.fin q ∧ q ≠ 0 ∧
      req.source_account_id ≠ createDestId st req ∧
      t.source_account_id = req.source_account_id ∧
      t.destination_account_id = createDestId st req ∧
      t.amount = req.amount ∧
      applyBalanceDeltasChecked (createAccounts1 st req) req.source_account_id
        (createDestId st req) req.amount = some st2.accounts ∧
      st2.transactions = (createStCat st req).transactions ++ [t] := by
  unfold create_transaction at h
  simp only [] at h
  split at h
  · exact absurd h (by simp)
  · split at h
    · exact absurd h (by simp)
    · rename_i hval hne
      split at h
      · exact absurd h (by simp)
      · rename_i accounts2 heq
        simp only [Prod.mk.injEq, Except.ok.injEq] at h
        obtain ⟨ht, hst⟩ := h
        have hfin : req.amount.isFinite = true := by
          rcases hf : req.amount.isFinite with _ | _
          · exact absurd (by simp [hf]) hval
          · rfl
        have hz : req.amount.isZero = false := by
          rcases hzz : req.amount.isZero with _ | _
          · rfl
          · exact absurd (by simp [hzz]) hval
        rcases hq : req.amount with q | _ | _ | _ <;> rw [hq] at hfin hz <;>
          simp [F64.isFinite] at hfin
        refine ⟨q, rfl, ?_, ?_, ?_, ?_, ?_, ?_, ?_⟩
        · simpa [F64.isZero] using hz
        · intro hcontra
          exact hne (by simpa [createDestId, createStCat] using hcontra)
        · rw [← ht]
        · rw [← ht]; rfl
        · rw [← ht]; exact hq
        · rw [← hst]
          simpa [createAccounts1, createDestId, createStCat, hq] using heq
        · rw [← hst, ← ht]
          rfl

/-- C1 (confirmed): a successful create with amount a moves value
according to the sign of a: for a >= 0 the source balance drops and the
destination balance rises by the absolute amount, for a < 0 the opposite,
and the two applied deltas always sum to zero (absent account rows are
read as balance 0; the synthesized destination starts at 0). -/
theorem claim_c1_create_balance_deltas (st : DBState) (req : CreateTransactionRequest)
    (t : Txn) (st2 : DBState) (h : create_transaction st req = (.ok t, st2)) :
    ∃ q : ℚ, req.amount = F64.fin q ∧ q ≠ 0 ∧
      ∃ ds dd : ℚ,
        balOr0 st2.accounts t.source_account_id =
          (balOr0 st.accounts t.source_account_id).add (F64.fin ds) ∧
        balOr0 st2.accounts t.destination_account_id =
          (balOr0 st.accounts t.destination_account_id).add (F64.fin dd) ∧
        (0 ≤ q → ds = -|q| ∧ dd = |q|) ∧
        (q < 0 → ds = |q| ∧ dd = -|q|) ∧
        ds + dd = 0 := by
  obtain ⟨q, hq, hqz, hne, hts, htd, -, hchk, -⟩ :=
    create_transaction_ok_inv st req t st2 h
  obtain ⟨hcs, hcd, hacc⟩ := applyBalanceDeltasChecked_some _ _ _ _ _ hchk
  obtain ⟨bs, hbs⟩ := acctBal_isSome_of_count_one _ _ hcs
  obtain ⟨bd, hbd⟩ := acctBal_isSome_of_count_one _ _ hcd
  have hstcat : (createStCat st req).accounts = st.accounts :=
    findOrCreateCategoryState_accounts st req.category
  have hbrS : balOr0 st.accounts req.source_account_id = bs ∧
      balOr0 st.accounts (createDestId st req) = bd := by
    rcases resolveDestination_shape (createStCat st req).accounts
        (createStCat st req).nextId req with heq1 | ⟨happ, hid⟩
    · have hA1 : createAccounts1 st req = st.accounts := by
        rw [createAccounts1, heq1, hstcat]
      constructor
      · have hx : acctBal st.accounts req.source_account_id = some bs := hA1 ▸ hbs
        simp [balOr0, hx]
      · have hx : acctBal st.accounts (createDestId st req) = some bd := hA1 ▸ hbd
        simp [balOr0, hx]
    · set newA : Account := synthesizedAccount
        (req.destination_name.getD req.description) ((createStCat st req).nextId)
        with hnewA
      have hA1 : createAccounts1 st req = st.accounts ++ [newA] := by
        rw [createAccounts1, happ, hstcat]
      have hidD : (createStCat st req).nextId = createDestId st req := hid.symm
      have hnewAid : newA.id = createDestId st req := by
        rw [hnewA, synthesizedAccount_id]
        exact hidD
      constructor
      · have hxne : newA.id ≠ req.source_account_id := by
          rw [hnewAid]
          exact fun hc => hne hc.symm
        have hx : acctBal st.accounts req.source_account_id = some bs := by
          rw [← acctBal_append_ne st.accounts newA _ hxne, ← hA1]
          exact hbs
        simp [balOr0, hx]
      · have hcount := hcd
        rw [hA1, filterLength_append] at hcount
        rw [if_pos (by simp [hnewAid])] at hcount
        have hzero : (st.accounts.filter
            (fun b => b.id == createDestId st req)).length = 0 := by omega
        have hnone : acctBal st.accounts (createDestId st req) = none :=
          acctBal_eq_none_of_count_zero _ _ hzero
        have hself : acctBal (createAccounts1 st req) (createDestId st req) =
            some newA.balance := by
          rw [hA1]
          exact acctBal_append_self _ _ _ hnone hnewAid
        have hbd0 : bd = newA.balance := Option.some.inj (hbd.symm.trans hself)
        simp [balOr0, hnone, hbd0, hnewA, synthesizedAccount_balance]
  obtain ⟨hbrSrc, hbrDst⟩ := hbrS
  have hfin : st2.accounts =
      applyBalanceDeltas (createAccounts1 st req) req.source_account_id
        (createDestId st req) (F64.fin q) := by rw [hacc, hq]
  have habs : (F64.fin q).abs = F64.fin |q| := rfl
  rw [hts, htd, hfin]
  by_cases hsign : 0 ≤ q
  · have hnn : (F64.fin q).nonneg = true := by simp [F64.nonneg, hsign]
    have hS : acctBal (applyBalanceDeltas (createAccounts1 st req)
        req.source_account_id (createDestId st req) (F64.fin q))
        req.source_account_id = some (bs.sub (F64.fin |q|)) := by
      rw [acctBal_applyBalanceDeltas_src _ _ _ _ hne, if_pos hnn, hbs, habs]
      rfl
    have hD : acctBal (applyBalanceDeltas (createAccounts1 st req)
        req.source_account_id (createDestId st req) (F64.fin q))
        (createDestId st req) = some (bd.add (F64.fin |q|)) := by
      rw [acctBal_applyBalanceDeltas_dst _ _ _ _ hne, if_pos hnn, hbd, habs]
      rfl
    refine ⟨q, hq, hqz, -|q|, |q|, ?_, ?_, fun _ => ⟨rfl, rfl⟩,
      fun hlt => absurd hlt (by simpa using hsign), by ring⟩
    · rw [hbrSrc]
      simp [balOr0, hS, F64.sub_fin_eq_add_neg]
    · rw [hbrDst]
      simp [balOr0, hD]
  · have hlt : q < 0 := lt_of_not_ge hsign
    have hnn : (F64.fin q).nonneg = false := by
      simp [F64.nonneg]
      exact hlt
    have hS : acctBal (applyBalanceDeltas (createAccounts1 st req)
        req.source_account_id (createDestId st req) (F64.fin q))
        req.source_account_id = some (bs.add (F64.fin |q|)) := by
      rw [acctBal_applyBalanceDeltas_src _ _ _ _ hne, if_neg (by simp [hnn]), hbs, habs]
      rfl
    have hD : acctBal (applyBalanceDeltas (createAccounts1 st req)
        req.source_account_id (createDestId st req) (F64.fin q))
        (createDestId st req) = some (bd.sub (F64.fin |q|)) := by
      rw [acctBal_applyBalanceDeltas_dst _ _ _ _ hne, if_neg (by simp [hnn]), hbd, habs]
      rfl
    refine ⟨q, hq, hqz, |q|, -|q|, ?_, ?_,
      fun hge => absurd hlt (by simpa using hge), fun _ => ⟨rfl, rfl⟩, by ring⟩
    · rw [hbrSrc]
      simp [balOr0, hS]
    · rw [hbrDst]
      simp [balOr0, hD, F64.sub_fin_eq_add_neg]

/-- Concrete input state for the C1 witness (the worked example of the
spec with an integer amount: account A with balance 100, a create of 5 to
Coffee Shop). -/
def stC1 : DBState :=
  { accounts := [{ id := 1, name := "A", account_type := "On Budget",
                   balance := F64.fin 100 }],
    transactions := [], categories := [], rules := [], nextId := 10 }

/-- Concrete request for the C1 witness. -/
def reqC1 : CreateTransactionRequest :=
  { source_account_id := 1, destination_account_id := none,
    destination_name := some "Coffee Shop", description := "coffee",
    amount := F64.fin 5, category := "Dining", budget_id := none }

/-- Transaction produced by the C1 witness run. -/
def txnC1 : Txn :=
  { id := 12, source_account_id := 1, destination_account_id := 11,
    destination_name := some "Coffee Shop", description := "coffee",
    amount := F64.fin 5, category := "Dining", category_id := some 10,
    budget_id := none }

/-- Output state of the C1 witness run: A drops by 5 and the synthesized
Coffee Shop account rises by 5 (balances written as the unevaluated
delta applications the engine produces). -/
def stC1out : DBState :=
  { accounts := [{ id := 1, name := "A", account_type := "On Budget",
                   balance := (F64.fin 100).sub (F64.fin 5).abs },
                 { id := 11, name := "Coffee Shop", account_type := "External",
                   balance := (F64.fin 0).add (F64.fin 5).abs }],
    transactions := [txnC1], categories := [{ id := 10, name := "Dining" }],
    rules := [], nextId := 13 }

/-- Witness for C1 at the concrete example. -/
theorem claim_c1_create_balance_deltas_witness :
    create_transaction stC1 reqC1 = (.ok txnC1, stC1out) ∧
    (∃ q : ℚ, reqC1.amount = F64.fin q ∧ q ≠ 0 ∧
      ∃ ds dd : ℚ,
        balOr0 stC1out.accounts txnC1.source_account_id =
          (balOr0 stC1.accounts txnC1.source_account_id).add (F64.fin ds) ∧
        balOr0 stC1out.accounts txnC1.destination_account_id =
          (balOr0 stC1.accounts txnC1.destination_account_id).add (F64.fin dd) ∧
        (0 ≤ q → ds = -|q| ∧ dd = |q|) ∧
        (q < 0 → ds = |q| ∧ dd = -|q|) ∧
        ds + dd = 0) :=
  ⟨by rfl, claim_c1_create_balance_deltas stC1 reqC1 txnC1 stC1out (by rfl)⟩

/-- C5 (amended): transactions committed by create_transaction satisfy
the declared invariants: a finite nonzero amount and distinct source and
destination accounts; the committed row is the returned transaction.
(update_transaction re-validates nothing; see the counterexample.) -/
theorem claim_c5_create_invariants (st : DBState) (req : CreateTransactionRequest)
    (t : Txn) (st2 : DBState) (h : create_transaction st req = (.ok t, st2)) :
    t.amount.isFinite = true ∧ t.amount.isZero = false ∧
    t.source_account_id ≠ t.destination_account_id ∧ t ∈ st2.transactions := by
  obtain ⟨q, hq, hqz, hne, hts, htd, hta, -, htr⟩ :=
    create_transaction_ok_inv st req t st2 h
  refine ⟨?_, ?_, ?_, ?_⟩
  · rw [hta, hq]; rfl
  · rw [hta, hq]
    simpa [F64.isZero] using hqz
  · rw [hts, htd]
    exact hne
  · rw [htr]
    exact List.mem_append_right _ (List.mem_singleton.mpr rfl)

/-- Witness for C5 at the concrete create of the C1 example. -/
theorem claim_c5_create_invariants_witness :
    create_transaction stC1 reqC1 = (.ok txnC1, stC1out) ∧
    (txnC1.amount.isFinite = true ∧ txnC1.amount.isZero = false ∧
      txnC1.source_account_id ≠ txnC1.destination_account_id ∧
      txnC1 ∈ stC1out.transactions) :=
  ⟨by rfl, claim_c5_create_invariants stC1 reqC1 txnC1 stC1out (by rfl)⟩

/-- Concrete state for the C5 counterexample: two accounts and one valid
transaction of amount 5. -/
def stC5 : DBState :=
  { accounts := [{ id := 1, name := "A", account_type := "On Budget",
                   balance := F64.fin 100 },
                 { id := 2, name := "B", account_type := "External",
                   balance := F64.fin 0 }],
    transactions := [{ id := 10, source_account_id := 1, destination_account_id := 2,
                       destination_name := none, description := "d",
                       amount := F64.fin 5, category := "c", category_id := none,
                       budget_id := none }],
    categories := [], rules := [], nextId := 20 }

/-- The update request of the C5 counterexample: set the amount to 0. -/
def updC5 : UpdateTransactionRequest :=
  { destination_account_id := none, destination_name := none, description := none,
    amount := some (F64.fin 0), category := none, budget_id := none }

/-- The transaction the C5 counterexample commits: amount 0. -/
def txnC5out : Txn :=
  { id := 10, source_account_id := 1, destination_account_id := 2,
    destination_name := none, description := "d", amount := F64.fin 0,
    category := "c", category_id := none, budget_id := none }

/-- Output state of the C5 counterexample run (balances written as the
unevaluated delta applications the engine produces). -/
def stC5out : DBState :=
  { accounts := [{ id := 1, name := "A", account_type := "On Budget",
                   balance := ((F64.fin 100).add (F64.fin 5).abs).sub (F64.fin 0).abs },
                 { id := 2, name := "B", account_type := "External",
                   balance := ((F64.fin 0).sub (F64.fin 5).abs).add (F64.fin 0).abs }],
    transactions := [txnC5out], categories := [], rules := [], nextId := 20 }

/-- C5 counterexample: update_transaction happily commits an amount of 0
(no re-validation), leaving a stored transaction that violates the
claimed invariant. -/
theorem claim_c5_counterexample :
    update_transaction stC5 10 updC5 = (.ok (some txnC5out), stC5out) ∧
    txnC5out.amount.isZero = true ∧ txnC5out ∈ stC5out.transactions := by
  refine ⟨by rfl, by decide, ?_⟩
  simp [stC5out]

/-- C3 (amended): a create whose amount is zero or non-finite, or whose
source equals the resolved destination, fails with InvalidTransaction and
leaves the accounts and transactions tables untouched; the state it
returns is exactly the category-resolution state, so a category created
during resolution persists (category resolution runs on the pool, outside
the discarded transaction scope). -/
theorem claim_c3_invalid_create_no_ledger_writes (st : DBState)
    (req : CreateTransactionRequest)
    (h : req.amount.isFinite = false ∨ req.amount.isZero = true ∨
      req.source_account_id = createDestId st req) :
    create_transaction st req = (.error .invalidTransaction, createStCat st req) ∧
    (createStCat st req).accounts = st.accounts ∧
    (createStCat st req).transactions = st.transactions := by
  refine ⟨?_, findOrCreateCategoryState_accounts st req.category,
    findOrCreateCategoryState_transactions st req.category⟩
  unfold create_transaction
  simp only []
  by_cases hval : (!req.amount.isFinite || req.amount.isZero) = true
  · rw [if_pos hval]
    rfl
  · rw [if_neg hval]
    have hsd : req.source_account_id = createDestId st req := by
      rcases h with h1 | h2 | h3
      · exact absurd (by simp [h1]) hval
      · exact absurd (by simp [h2]) hval
      · exact h3
    rw [if_pos (by simpa [createDestId, createStCat] using beq_iff_eq.mpr hsd)]
    rfl

/-- Concrete state for the C3 counterexample: two accounts, no
categories. -/
def stC3 : DBState :=
  { accounts := [{ id := 1, name := "A", account_type := "On Budget",
                   balance := F64.fin 100 },
                 { id := 2, name := "B", account_type := "External",
                   balance := F64.fin 0 }],
    transactions := [], categories := [], rules := [], nextId := 30 }

/-- The invalid request of the C3 counterexample: amount 0 with an unseen
category name. -/
def reqC3 : CreateTransactionRequest :=
  { source_account_id := 1, destination_account_id := some 2,
    destination_name := none, description := "x", amount := F64.fin 0,
    category := "Food", budget_id := none }

/-- The state left behind by the failed create of the C3 counterexample:
a brand-new Food category persists. -/
def stC3out : DBState :=
  { accounts := stC3.accounts, transactions := [],
    categories := [{ id := 30, name := "Food" }], rules := [], nextId := 31 }

/-- C3 counterexample: the rejected create performs no ledger writes but
does leave a newly created category behind, contradicting the claim that
no new category exists afterwards. -/
theorem claim_c3_counterexample :
    create_transaction stC3 reqC3 = (.error .invalidTransaction, stC3out) ∧
    stC3.categories = [] ∧
    stC3out.categories = [{ id := 30, name := "Food" }] :=
  ⟨by rfl, rfl, rfl⟩

/-- Witness for C3 at the concrete invalid request. -/
theorem claim_c3_invalid_create_no_ledger_writes_witness :
    (reqC3.amount.isFinite = false ∨ reqC3.amount.isZero = true ∨
      reqC3.source_account_id = createDestId stC3 reqC3) ∧
    (create_transaction stC3 reqC3 = (.error .invalidTransaction, createStCat stC3 reqC3) ∧
      (createStCat stC3 reqC3).accounts = stC3.accounts ∧
      (createStCat stC3 reqC3).transactions = stC3.transactions) :=
  ⟨Or.inr (Or.inl (by decide)),
    claim_c3_invalid_create_no_ledger_writes stC3 reqC3 (Or.inr (Or.inl (by decide)))⟩

/-- C2 (amended): only create_transaction enforces the one-row check.
Any create failure discards every write of its transaction scope (the
accounts and transactions tables are unchanged; a category may persist),
and when validation passes but a balance update would affect a number of
rows other than one, create fails with InvariantViolation.  update and
delete perform no row-count checks: whenever the row exists they succeed,
even if a balance update affects zero rows. -/
theorem claim_c2_rowcount_checks :
    (∀ (st : DBState) (req : CreateTransactionRequest) (e : SvcError) (st2 : DBState),
      create_transaction st req = (.error e, st2) →
      st2.accounts = st.accounts ∧ st2.transactions = st.transactions) ∧
    (∀ (st : DBState) (req : CreateTransactionRequest),
      (!req.amount.isFinite || req.amount.isZero) = false →
      (req.source_account_id == createDestId st req) = false →
      applyBalanceDeltasChecked (createAccounts1 st req) req.source_account_id
        (createDestId st req) req.amount = none →
      create_transaction st req = (.error .invariantViolation, createStCat st req)) ∧
    (∀ (st : DBState) (tid : Nat) (t : Txn),
      st.transactions.find? (fun u => u.id == tid) = some t →
      (delete_transaction st tid).1 = true) ∧
    (∀ (st : DBState) (tid : Nat) (req : UpdateTransactionRequest) (t : Txn),
      st.transactions.find? (fun u => u.id == tid) = some t →
      ∃ t2, (update_transaction st tid req).1 = .ok (some t2)) := by
  refine ⟨?_, ?_, ?_, ?_⟩
  · intro st req e st2 h
    unfold create_transaction at h
    simp only [] at h
    split at h
    · simp only [Prod.mk.injEq] at h
      rw [← h.2, findOrCreateCategoryState_accounts, findOrCreateCategoryState_transactions]
      exact ⟨rfl, rfl⟩
    · split at h
      · simp only [Prod.mk.injEq] at h
        rw [← h.2, findOrCreateCategoryState_accounts, findOrCreateCategoryState_transactions]
        exact ⟨rfl, rfl⟩
      · split at h
        · simp only [Prod.mk.injEq] at h
          rw [← h.2, findOrCreateCategoryState_accounts,
            findOrCreateCategoryState_transactions]
          exact ⟨rfl, rfl⟩
        · exact absurd h (by simp)
  · intro st req hval hsd hchk
    unfold create_transaction
    simp only []
    have hsd2 : (req.source_account_id ==
        (resolveDestination (findOrCreateCategoryState st req.category).2.accounts
          (findOrCreateCategoryState st req.category).2.nextId req).1) = false := hsd
    rw [if_neg (by simp [hval]), if_neg (by simp [hsd2])]
    simp only [createAccounts1, createDestId, createStCat] at hchk
    simp only [hchk]
    rfl
  · intro st tid t h
    unfold delete_transaction
    simp only [h]
  · intro st tid req t h
    unfold update_transaction
    simp only [h]
    exact ⟨_, rfl⟩

/-- Concrete state for the C2 counterexample and witness: the stored
transaction references source account id 0, which has no account row. -/
def stC2 : DBState :=
  { accounts := [{ id := 1, name := "B", account_type := "On Budget",
                   balance := F64.fin 100 }],
    transactions := [{ id := 10, source_account_id := 0, destination_account_id := 1,
                       destination_name := none, description := "d",
                       amount := F64.fin 5, category := "c", category_id := none,
                       budget_id := none }],
    categories := [], rules := [], nextId := 40 }

/-- State after the C2 counterexample delete: the row is gone and the
destination balance was still reversed, although the source-side update
matched zero rows. -/
def stC2out : DBState :=
  { accounts := [{ id := 1, name := "B", account_type := "On Budget",
                   balance := (F64.fin 100).sub (F64.fin 5).abs }],
    transactions := [], categories := [], rules := [], nextId := 40 }

/-- C2 counterexample: a delete whose source-side balance update affects
zero rows still succeeds and persists a one-sided balance change, instead
of failing with InvariantViolation and discarding all writes. -/
theorem claim_c2_counterexample :
    (stC2.accounts.filter (fun a => a.id == 0)).length = 0 ∧
    delete_transaction stC2 10 = (true, stC2out) ∧
    stC2out.accounts ≠ stC2.accounts := by
  refine ⟨by decide, by rfl, ?_⟩
  intro hcontra
  simp only [stC2out, stC2, List.cons.injEq, and_true, Account.mk.injEq, true_and] at hcontra
  simp only [F64.abs, F64.sub, F64.neg, F64.add, F64.fin.injEq] at hcontra
  norm_num at hcontra

/-- Witness for C2: the delete of the counterexample state discharges the
existence hypothesis of the delete conjunct, and the invalid create of
the C3 state discharges the create-failure conjunct. -/
theorem claim_c2_rowcount_checks_witness :
    stC2.transactions.find? (fun u => u.id == 10) =
      some { id := 10, source_account_id := 0, destination_account_id := 1,
             destination_name := none, description := "d", amount := F64.fin 5,
             category := "c", category_id := none, budget_id := none } ∧
    (delete_transaction stC2 10).1 = true ∧
    create_transaction stC3 reqC3 = (.error .invalidTransaction, stC3out) ∧
    (stC3out.accounts = stC3.accounts ∧ stC3out.transactions = stC3.transactions) :=
  ⟨by rfl,
    claim_c2_rowcount_checks.2.2.1 stC2 10 _ (by rfl),
    by rfl,
    claim_c2_rowcount_checks.1 stC3 reqC3 .invalidTransaction stC3out (by rfl)⟩

/-- The patch of the C4 scenario: change only the amount. -/
def amountPatch (qb : ℚ) : UpdateTransactionRequest :=
  { destination_account_id := none, destination_name := none, description := none,
    amount := some (F64.fin qb), category := none, budget_id := none }

/-- The create request reconstructing a transaction with amount qb and
all other fields equal to the original. -/
def recreateRequest (orig : Txn) (qb : ℚ) : CreateTransactionRequest :=
  { source_account_id := orig.source_account_id,
    destination_account_id := some orig.destination_account_id,
    destination_name := orig.destination_name,
    description := orig.description, amount := F64.fin qb,
    category := orig.category, budget_id := orig.budget_id }

/-- C4 (amended): for every finite new amount qb, and provided the
transaction exists and its source and destination accounts each match
exactly one account row, updating the amount to qb leaves exactly the
same account table as deleting the transaction and re-creating it with
amount qb and all other fields equal.  (Without the row-existence
proviso the two sides diverge, because create checks row counts and
update does not; see the counterexample.) -/
theorem claim_c4_update_eq_delete_create (st : DBState) (tid : Nat) (orig : Txn)
    (qb : ℚ)
    (hfind : st.transactions.find? (fun u => u.id == tid) = some orig)
    (hs : (st.accounts.filter (fun a => a.id == orig.source_account_id)).length = 1)
    (hd : (st.accounts.filter (fun a => a.id == orig.destination_account_id)).length = 1) :
    ((update_transaction st tid (amountPatch qb)).2).accounts =
      ((create_transaction (delete_transaction st tid).2 (recreateRequest orig qb)).2).accounts := by
  have hLHS : ((update_transaction st tid (amountPatch qb)).2).accounts =
      applyBalanceDeltas (reverseBalanceDeltas st.accounts orig)
        orig.source_account_id orig.destination_account_id (F64.fin qb) := by
    unfold update_transaction
    simp only [hfind, amountPatch, Option.getD, Option.isNone]
  have hdelacc : ((delete_transaction st tid).2).accounts =
      reverseBalanceDeltas st.accounts orig := by
    unfold delete_transaction
    simp only [hfind]
  have hcatacc : (createStCat (delete_transaction st tid).2 (recreateRequest orig qb)).accounts =
      ((delete_transaction st tid).2).accounts :=
    findOrCreateCategoryState_accounts _ _
  have haccounts1 : createAccounts1 (delete_transaction st tid).2 (recreateRequest orig qb) =
      (createStCat (delete_transaction st tid).2 (recreateRequest orig qb)).accounts := rfl
  have hdest : createDestId (delete_transaction st tid).2 (recreateRequest orig qb) =
      orig.destination_account_id := rfl
  have hA1rev : createAccounts1 (delete_transaction st tid).2 (recreateRequest orig qb) =
      reverseBalanceDeltas st.accounts orig := by
    rw [haccounts1, hcatacc, hdelacc]
  rw [hLHS]
  by_cases hz : qb = 0
  · subst hz
    have hinv : create_transaction (delete_transaction st tid).2 (recreateRequest orig 0) =
        (.error .invalidTransaction,
          createStCat (delete_transaction st tid).2 (recreateRequest orig 0)) := by
      unfold create_transaction
      simp only []
      rw [if_pos (by simp [recreateRequest, F64.isFinite, F64.isZero])]
      rfl
    rw [hinv, applyBalanceDeltas_zero, hcatacc, hdelacc]
  · by_cases hsd : orig.source_account_id = orig.destination_account_id
    · have hinv : create_transaction (delete_transaction st tid).2 (recreateRequest orig qb) =
          (.error .invalidTransaction,
            createStCat (delete_transaction st tid).2 (recreateRequest orig qb)) := by
        unfold create_transaction
        simp only []
        rw [if_neg (by simp [recreateRequest, F64.isFinite, F64.isZero, hz]),
          if_pos (by simp [recreateRequest, resolveDestination, findOrCreateCategoryState, hsd])]
        rfl
      rw [hinv, hsd, applyBalanceDeltas_same_account, hcatacc, hdelacc]
    · have hcs : ((createAccounts1 (delete_transaction st tid).2 (recreateRequest orig qb)).filter
          (fun a => a.id == orig.source_account_id)).length = 1 := by
        rw [hA1rev, filterLength_reverseBalanceDeltas]
        exact hs
      have hcd : ((createAccounts1 (delete_transaction st tid).2 (recreateRequest orig qb)).filter
          (fun a => a.id == orig.destination_account_id)).length = 1 := by
        rw [hA1rev, filterLength_reverseBalanceDeltas]
        exact hd
      have hchk := applyBalanceDeltasChecked_of_counts
        (createAccounts1 (delete_transaction st tid).2 (recreateRequest orig qb))
        orig.source_account_id orig.destination_account_id (F64.fin qb) hcs hcd
      have hsucc : ((create_transaction (delete_transaction st tid).2
            (recreateRequest orig qb)).2).accounts =
          applyBalanceDeltas
            (createAccounts1 (delete_transaction st tid).2 (recreateRequest orig qb))
            orig.source_account_id orig.destination_account_id (F64.fin qb) := by
        have hchk2 : applyBalanceDeltasChecked
            (resolveDestination
              (findOrCreateCategoryState (delete_transaction st tid).2
                (recreateRequest orig qb).category).2.accounts
              (findOrCreateCategoryState (delete_transaction st tid).2
                (recreateRequest orig qb).category).2.nextId
              (recreateRequest orig qb)).2.1
            (recreateRequest orig qb).source_account_id
            (resolveDestination
              (findOrCreateCategoryState (delete_transaction st tid).2
                (recreateRequest orig qb).category).2.accounts
              (findOrCreateCategoryState (delete_transaction st tid).2
                (recreateRequest orig qb).category).2.nextId
              (recreateRequest orig qb)).1
            (recreateRequest orig qb).amount =
            some (applyBalanceDeltas
              (createAccounts1 (delete_transaction st tid).2 (recreateRequest orig qb))
              orig.source_account_id orig.destination_account_id (F64.fin qb)) := hchk
        unfold create_transaction
        simp only []
        rw [if_neg (by simp [recreateRequest, F64.isFinite, F64.isZero, hz]),
          if_neg (by simp [recreateRequest, resolveDestination, findOrCreateCategoryState, hsd])]
        rw [hchk2]
      rw [hsucc, hA1rev]

/-- The stored transaction of the C4 witness state (identical to the row
in stC5). -/
def txnC4orig : Txn :=
  { id := 10, source_account_id := 1, destination_account_id := 2,
    destination_name := none, description := "d", amount := F64.fin 5,
    category := "c", category_id := none, budget_id := none }

/-- Witness for C4 at a concrete healthy state: both accounts exist, so
updating the amount to 7 and delete-plus-recreate with amount 7 agree. -/
theorem claim_c4_update_eq_delete_create_witness :
    stC5.transactions.find? (fun u => u.id == 10) = some txnC4orig ∧
    (stC5.accounts.filter (fun a => a.id == txnC4orig.source_account_id)).length = 1 ∧
    (stC5.accounts.filter (fun a => a.id == txnC4orig.destination_account_id)).length = 1 ∧
    ((update_transaction stC5 10 (amountPatch 7)).2).accounts =
      ((create_transaction (delete_transaction stC5 10).2
        (recreateRequest txnC4orig 7)).2).accounts :=
  ⟨by rfl, by decide, by decide,
    claim_c4_update_eq_delete_create stC5 10 txnC4orig 7 (by rfl) (by decide) (by decide)⟩

/-- The stored transaction of the C4 counterexample state (identical to
the row in stC2, whose source account id 0 has no account row). -/
def txnC4bad : Txn :=
  { id := 10, source_account_id := 0, destination_account_id := 1,
    destination_name := none, description := "d", amount := F64.fin 5,
    category := "c", category_id := none, budget_id := none }

/-- C4 counterexample: with the source account row missing, the update
path applies both the reversal and the new effect to the destination
(final balance 100 - 5 + 7), while the delete-then-create path stops at
the create row-count check (InvariantViolation) and leaves only the
reversal (final balance 100 - 5); the two destination balances differ,
refuting the claim as stated. -/
theorem claim_c4_counterexample :
    acctBal ((update_transaction stC2 10 (amountPatch 7)).2).accounts 1 =
      some (((F64.fin 100).sub (F64.fin 5).abs).add (F64.fin 7).abs) ∧
    acctBal ((create_transaction (delete_transaction stC2 10).2
        (recreateRequest txnC4bad 7)).2).accounts 1 =
      some ((F64.fin 100).sub (F64.fin 5).abs) ∧
    ((F64.fin 100).sub (F64.fin 5).abs).add (F64.fin 7).abs ≠
      (F64.fin 100).sub (F64.fin 5).abs := by
  refine ⟨by rfl, by rfl, ?_⟩
  intro h
  simp only [F64.abs, F64.sub, F64.neg, F64.add, F64.fin.injEq] at h
  have h5 : |(5 : ℚ)| = 5 := abs_of_nonneg (by norm_num)
  have h7 : |(7 : ℚ)| = 7 := abs_of_nonneg (by norm_num)
  rw [h5, h7] at h
  norm_num at h
